import Mathlib

/-!
Verification of the Musica Player (Android/Termux) playback core,
`musicaplayer_android.py`, as a shallow embedding in Lean 4.

The embedding covers:
* the filter graph builder `build_af` (EQ / gain presets),
* the metadata cache `get_metadata` with its filename fallback,
* the session state (`state` dict plus the `mpv_proc` / `stop_playlist`
  globals) and the playlist driver `_playlist_runner`, modelled as a step
  function over an explicit `Session` record driven by handler actions and
  driver-scheduling events,
* the HTTP POST handlers for volume, stop, EQ preset and gain preset.

Subprocess, socket and file-system effects are modelled by explicit
environment outcomes (`SpawnOutcome`, `MutagenResult`); a Python function
that catches all exceptions and falls back is modelled as a total Lean
function over those outcomes.
-/

/-! ## Filter graph builder (`build_af`, lines 360-368) -/

/-- The ten fixed equalizer band center frequencies, in hertz
(`freqs` in `build_af`). -/
def eqFreqs : List Nat := [31, 62, 125, 250, 500, 1000, 2000, 4000, 8000, 16000]

/-- The `EQ_PRESETS` table: preset id to the ten band gains in dB.
Unknown ids map to `Option.none` (the Python dict has no entry). -/
def EQ_PRESETS (k : String) : Option (List Int) :=
  if k = "none" then some [0, 0, 0, 0, 0, 0, 0, 0, 0, 0]
  else if k = "classical" then some [4, 3, 2, 0, 0, 0, 1, 3, 4, 4]
  else if k = "jazz" then some [2, 2, 3, 4, 4, 3, 3, 4, 4, 3]
  else if k = "rock" then some [4, 3, 2, 1, -1, -1, 0, 2, 3, 4]
  else if k = "pop" then some [-1, -1, 0, 2, 4, 4, 2, 0, -1, -2]
  else if k = "bass_boost" then some [6, 5, 4, 2, 0, 0, 0, 0, 0, 0]
  else if k = "treble" then some [0, 0, 0, 0, 0, 2, 3, 4, 5, 6]
  else if k = "vocal" then some [-2, -2, 0, 2, 4, 4, 3, 2, 1, 0]
  else if k = "tinnitus" then some [0, 0, 0, 0, 0, 0, 0, -3, -5, -8]
  else none

/-- The `GAIN_PRESETS` table: gain preset id to its dB value. -/
def GAIN_PRESETS (k : String) : Option Int :=
  if k = "classical" then some (-3)
  else if k = "jazz_pop" then some 0
  else if k = "loud" then some 3
  else if k = "quiet" then some (-6)
  else none

/-- One stage of the ffmpeg `-af` filter chain: either the broadband
`volume={db}dB` stage or an `equalizer=f={f}:width_type={wt}:width={w}:g={g}`
parametric band stage. -/
inductive FilterStage where
  | volume (db : Int)
  | equalizer (f : Nat) (width_type : String) (width : Nat) (g : Int)
deriving DecidableEq, Repr

/-- The band stages appended by the `for f, g in zip(freqs, bands)` loop of
`build_af`: one `equalizer` stage per nonzero band gain, in `eqFreqs` order.
`EQ_PRESETS.get(eq_preset, EQ_PRESETS['none'])` is the `getD` with the
all-zero list. -/
def band_stages (eq_preset : String) : List FilterStage :=
  let bands := (EQ_PRESETS eq_preset).getD [0, 0, 0, 0, 0, 0, 0, 0, 0, 0]
  (eqFreqs.zip bands).filterMap fun fg =>
    if fg.2 ≠ 0 then some (FilterStage.equalizer fg.1 "o" 2 fg.2) else none

/-- The full filter chain built by `build_af`:
`filters = [f'volume={gain_db}dB']` followed by the band stages. -/
def build_af_stages (eq_preset : String) (gain_db : Int) : List FilterStage :=
  FilterStage.volume gain_db :: band_stages eq_preset

/-- Renders one stage back to the exact string the Python f-strings produce. -/
def renderStage : FilterStage → String
  | FilterStage.volume db => "volume=" ++ toString db ++ "dB"
  | FilterStage.equalizer f wt w g =>
      "equalizer=f=" ++ toString f ++ ":width_type=" ++ wt ++
        ":width=" ++ toString w ++ ":g=" ++ toString g

/-- `build_af`: the comma-joined `-af` string (`','.join(filters)`). -/
def build_af (eq_preset : String) (gain_db : Int) : String :=
  String.intercalate "," ((build_af_stages eq_preset gain_db).map renderStage)

/-- True exactly for a well-formed band stage: `width_type` is `o` (octave),
width factor 2, nonzero gain, and a center frequency drawn from `eqFreqs`. -/
def isBandStage : FilterStage → Bool
  | FilterStage.equalizer f wt w g =>
      wt == "o" && w == 2 && g != 0 && eqFreqs.contains f
  | _ => false

/-- The center frequencies of the band stages of a chain, in order. -/
def stageFreqs (l : List FilterStage) : List Nat :=
  l.filterMap fun st =>
    match st with
    | FilterStage.equalizer f _ _ _ => some f
    | _ => none

/-! ## Metadata cache (`get_metadata`, lines 183-257) -/

/-- `os.path.basename`: the part of the path after the final slash. -/
def basename (p : String) : String :=
  String.mk (p.data.foldl (fun acc c => if c = '/' then [] else acc ++ [c]) [])

/-- The root part of `os.path.splitext` applied to a basename: strip the
extension at the last dot, except when every character before that dot is a
dot (so `.bashrc` keeps its name, as in CPython). -/
def splitextRoot (b : String) : String :=
  let cs := b.data
  match cs.reverse.findIdx? (· = '.') with
  | none => b
  | some r =>
      let dotPos := cs.length - 1 - r
      if (cs.take dotPos).any (· ≠ '.') then String.mk (cs.take dotPos) else b

/-- The track descriptor dict built by `get_metadata`. -/
structure Meta where
  path : String
  title : String
  artist : String
  album : String
  duration : Nat
  cover : Option String
deriving DecidableEq, Repr

/-- The descriptor `get_metadata` initialises before any extraction:
title from the filename without extension, everything else empty / zero /
none (lines 188-195). -/
def defaultMeta (path : String) : Meta :=
  { path := path
    title := splitextRoot (basename path)
    artist := ""
    album := ""
    duration := 0
    cover := none }

/-- One successful in-place mutation of `meta` inside the `try` block of
`get_metadata`: a tag field read, the duration read, or the embedded-cover
temp file written. -/
inductive ExtractEvent where
  | setTitle (v : String)
  | setArtist (v : String)
  | setAlbum (v : String)
  | setDuration (n : Nat)
  | setCover (p : String)
deriving DecidableEq, Repr

/-- Applies one extraction mutation to the descriptor. -/
def applyEvent (m : Meta) : ExtractEvent → Meta
  | ExtractEvent.setTitle v => { m with title := v }
  | ExtractEvent.setArtist v => { m with artist := v }
  | ExtractEvent.setAlbum v => { m with album := v }
  | ExtractEvent.setDuration n => { m with duration := n }
  | ExtractEvent.setCover p => { m with cover := p }

/-- What the mutagen-based extraction does for a path:
* `unavailable`: `MUTAGEN_OK` is false (import failed), extraction skipped;
* `raisesAtOpen`: `MutagenFile(path)` itself raises;
* `isNone`: `MutagenFile(path)` returns `None` (unrecognized file);
* `opened evts raised`: the file opened and `evts` are the field mutations
  that succeeded, in order, before the block either finished
  (`raised = false`) or raised midway (`raised = true`); the bare
  `except Exception: pass` makes both store the same partially built meta. -/
inductive MutagenResult where
  | unavailable
  | raisesAtOpen
  | isNone
  | opened (events : List ExtractEvent) (raised : Bool)
deriving DecidableEq, Repr

/-- `get_metadata`: checks the `track_db` cache (an association list keyed by
path, newest entry first, mirroring the dict), otherwise runs extraction per
the `MutagenResult` oracle and stores the result. Returns the descriptor, the
updated cache, and whether `MutagenFile` was invoked (extraction performed).
Totality of this function models that every exception is caught. -/
def get_metadata (db : List (String × Meta)) (path : String)
    (ext : MutagenResult) : Meta × List (String × Meta) × Bool :=
  match List.lookup path db with
  | some m => (m, db, false)
  | none =>
      match ext with
      | MutagenResult.unavailable =>
          (defaultMeta path, (path, defaultMeta path) :: db, false)
      | MutagenResult.raisesAtOpen =>
          (defaultMeta path, (path, defaultMeta path) :: db, true)
      | MutagenResult.isNone =>
          (defaultMeta path, (path, defaultMeta path) :: db, true)
      | MutagenResult.opened events _ =>
          let m := events.foldl applyEvent (defaultMeta path)
          (m, (path, m) :: db, true)

/-! ## Session state and playback engine (`state`, lines 157-178, 373-513) -/

/-- Where the playlist driver thread stands in `_playlist_runner`:
at the outer loop head (`top`), inside the inner poll loop with the
iteration's captured `idx` (`polling idx`), or exited (`done`). -/
inductive Phase where
  | top
  | polling (idx : Int)
  | done
deriving DecidableEq, Repr

/-- Outcome of one poll tick of the inner loop (lines 482-493): the
advance break, the retreat break, or the `time.sleep(0.4)` path. -/
inductive TickResult where
  | brokeNext
  | brokePrev
  | slept
deriving DecidableEq, Repr

/-- Environment outcome of the two `subprocess.Popen` calls in `play_track`:
success (with the cover path `get_cover` resolves for the track), a
`FileNotFoundError` (ffmpeg / mpv missing), or any other spawn exception. -/
inductive SpawnOutcome where
  | ok (cover : Option String)
  | errFileNotFound
  | errOther
deriving DecidableEq, Repr

/-- True on the two exception branches of `play_track`. -/
def SpawnOutcome.isFail : SpawnOutcome → Bool
  | SpawnOutcome.ok _ => false
  | _ => true

/-- The process-wide session: the `state` dict fields the core uses
(`_skip_next` / `_skip_prev` are `skip_next` / `skip_prev`), plus the
`mpv_proc` handle (modelled as whether a render process handle is live),
the `stop_playlist` flag, and the driver thread's control point `phase`.
`current_track` holds the path of the resolved track descriptor. -/
structure Session where
  playlist : List String
  current_index : Int
  playing : Bool
  paused : Bool
  radio_mode : Bool
  volume : Int
  eq_preset : String
  gain_preset : String
  gain_db : Int
  current_track : Option String
  cover_path : Option String
  skip_next : Bool
  skip_prev : Bool
  mpv_proc : Bool
  stop_playlist : Bool
  phase : Phase
deriving DecidableEq, Repr

/-- The initial `state` dict (lines 157-171), with no driver thread. -/
def initSession : Session :=
  { playlist := []
    current_index := -1
    playing := false
    paused := false
    radio_mode := false
    volume := 85
    eq_preset := "none"
    gain_preset := "classical"
    gain_db := -3
    current_track := none
    cover_path := none
    skip_next := false
    skip_prev := false
    mpv_proc := false
    stop_playlist := false
    phase := Phase.done }

/-- `stop_mpv` (lines 373-385): quits / terminates the renderer, clears the
handle, and resets the playing / paused flags. Idempotent. -/
def stop_mpv (s : Session) : Session :=
  { s with mpv_proc := false, playing := false, paused := false }

/-- `play_track` (lines 388-434): tears down any existing pipeline, then
spawns ffmpeg piped into mpv. On success it records the handle, marks the
session playing (non-radio), and resolves the current track descriptor and
cover; on either exception branch it logs and returns `none` with no further
state change. The first component is the returned handle (`None` on
failure). -/
def play_track (s : Session) (path : String) (spawn : SpawnOutcome) :
    Option Unit × Session :=
  let s := stop_mpv s
  match spawn with
  | SpawnOutcome.ok cover =>
      (some (),
        { s with mpv_proc := true
                 playing := true
                 paused := false
                 radio_mode := false
                 current_track := some path
                 cover_path := cover })
  | SpawnOutcome.errFileNotFound => (none, s)
  | SpawnOutcome.errOther => (none, s)

/-- One poll tick of the inner loop of `_playlist_runner` (lines 482-493),
with the iteration's captured `idx`: the advance flag is checked first; a
consumed flag clamps the index and force-stops the pipeline. -/
def pollTick (s : Session) (idx : Int) : TickResult × Session :=
  if s.skip_next then
    (TickResult.brokeNext,
      stop_mpv { s with
        skip_next := false
        current_index := min (idx + 1) ((s.playlist.length : Int) - 1) })
  else if s.skip_prev then
    (TickResult.brokePrev,
      stop_mpv { s with
        skip_prev := false
        current_index := max (idx - 1) 0 })
  else (TickResult.slept, s)

/-- `start_playlist` (lines 503-513) after the old driver thread is joined:
installs the playlist and index, clears the stop flag, and launches a fresh
driver thread at the outer loop head. -/
def start_playlist (s : Session) (pl : List String) (idx : Int) : Session :=
  { s with playlist := pl
           current_index := idx
           stop_playlist := false
           phase := Phase.top }

/-- The `/api/stop` handler body (lines 1180-1185): raise the stop flag,
tear down the renderer, and clear the current track and cover. -/
def api_stop (s : Session) : Session :=
  let s := { s with stop_playlist := true }
  let s := stop_mpv s
  { s with current_track := none, cover_path := none }

/-- The `/api/volume` handler body (lines 1188-1192): store the requested
integer volume and forward it to mpv. The second component is the value sent
to `mpv_set('volume', v)`, which is also echoed in the JSON response. -/
def api_volume (s : Session) (v : Int) : Session × Int :=
  ({ s with volume := v }, v)

/-- The `/api/eq` handler body (lines 1195-1203): a known preset id is
stored and, when a non-radio track is playing, the pipeline is restarted via
`start_playlist`; an unknown id falls through. The reply always carries HTTP
200 with the requested id echoed (second component); the third component
records whether a restart was triggered. -/
def api_eq (s : Session) (preset : String) : Session × String × Bool :=
  match EQ_PRESETS preset with
  | some _ =>
      let s := { s with eq_preset := preset }
      if s.playing && !s.radio_mode then
        (start_playlist s s.playlist s.current_index, preset, true)
      else (s, preset, false)
  | none => (s, preset, false)

/-- The `/api/gain` handler body (lines 1206-1214): like `/api/eq` but also
stores the preset's dB value in `gain_db`. -/
def api_gain (s : Session) (preset : String) : Session × String × Bool :=
  match GAIN_PRESETS preset with
  | some db =>
      let s := { s with gain_preset := preset, gain_db := db }
      if s.playing && !s.radio_mode then
        (start_playlist s s.playlist s.current_index, preset, true)
      else (s, preset, false)
  | none => (s, preset, false)

/-- One atomic event of the concurrent system: an external handler action, or
one scheduling step of the driver thread (an outer-loop head evaluation, a
poll tick while the renderer is alive, or the renderer exiting). Actions that
do not apply in the current phase are no-ops. -/
inductive Act where
  | startValid (pl : List String) (idx : Int)
  | startPaths (pl : List String) (idx : Int)
  | signalNext
  | signalPrev
  | apiStop
  | driverTop (spawn : SpawnOutcome)
  | driverTick
  | driverEnd
deriving DecidableEq, Repr

/-- The step function of the playback engine.
* `startValid` is the `/api/play-idx` path (lines 1146-1152): start only
  with a validated in-range index.
* `startPaths` is the `/api/play-paths` path (lines 1154-1158): the request
  body's paths and index are handed to `start_playlist` with no validation
  at all, so any requested integer becomes `current_index`.
* `signalNext` / `signalPrev` are `/api/next` and `/api/prev`.
* `driverTop` is one evaluation of the outer loop head of
  `_playlist_runner` (lines 468-479 and 499-500): exit on the stop flag, go
  idle on an empty playlist or out-of-range index, otherwise attempt
  `play_track` — a failed spawn advances the index and retries, a successful
  one enters the poll loop with the captured `idx`.
* `driverTick` is one inner-loop iteration (lines 482-493): the loop exits
  without consuming anything when the stop flag is up, otherwise the skip
  flags are checked.
* `driverEnd` is the renderer process exiting: the `while`-`else` branch
  (lines 494-497) advances the index unless the stop flag is up. -/
def step (s : Session) (a : Act) : Session :=
  match a with
  | Act.startValid pl idx =>
      if 0 ≤ idx ∧ idx < (pl.length : Int) then start_playlist s pl idx else s
  | Act.startPaths pl idx => start_playlist s pl idx
  | Act.signalNext => { s with skip_next := true }
  | Act.signalPrev => { s with skip_prev := true }
  | Act.apiStop => api_stop s
  | Act.driverTop spawn =>
      match s.phase with
      | Phase.top =>
          if s.stop_playlist then { s with phase := Phase.done }
          else if s.playlist.isEmpty ∨ s.current_index < 0 ∨
              (s.playlist.length : Int) ≤ s.current_index then
            { s with playing := false, phase := Phase.done }
          else
            let path := s.playlist.getD s.current_index.toNat ""
            let r := play_track s path spawn
            match r.1 with
            | none => { r.2 with current_index := r.2.current_index + 1 }
            | some _ => { r.2 with phase := Phase.polling s.current_index }
      | _ => s
  | Act.driverTick =>
      match s.phase with
      | Phase.polling idx =>
          if s.stop_playlist then { s with phase := Phase.top }
          else
            let r := pollTick s idx
            match r.1 with
            | TickResult.slept => r.2
            | _ => { r.2 with phase := Phase.top }
      | _ => s
  | Act.driverEnd =>
      match s.phase with
      | Phase.polling _ =>
          if s.stop_playlist then { s with phase := Phase.top }
          else { s with current_index := s.current_index + 1, phase := Phase.top }
      | _ => s

/-- The state reached from process start by a sequence of events. -/
def reach (acts : List Act) : Session :=
  acts.foldl step initSession

/-! ## Helper lemmas -/

/-- The `band_stages` definition with the `let` expanded. -/
lemma band_stages_eq (p : String) :
    band_stages p =
      (eqFreqs.zip ((EQ_PRESETS p).getD [0, 0, 0, 0, 0, 0, 0, 0, 0, 0])).filterMap
        (fun fg =>
          if fg.2 ≠ 0 then some (FilterStage.equalizer fg.1 "o" 2 fg.2)
          else none) := rfl

/-- Exhaustive case split over the preset table. -/
lemma EQ_PRESETS_cases (p : String) :
    EQ_PRESETS p = some [0, 0, 0, 0, 0, 0, 0, 0, 0, 0] ∨
    EQ_PRESETS p = some [4, 3, 2, 0, 0, 0, 1, 3, 4, 4] ∨
    EQ_PRESETS p = some [2, 2, 3, 4, 4, 3, 3, 4, 4, 3] ∨
    EQ_PRESETS p = some [4, 3, 2, 1, -1, -1, 0, 2, 3, 4] ∨
    EQ_PRESETS p = some [-1, -1, 0, 2, 4, 4, 2, 0, -1, -2] ∨
    EQ_PRESETS p = some [6, 5, 4, 2, 0, 0, 0, 0, 0, 0] ∨
    EQ_PRESETS p = some [0, 0, 0, 0, 0, 2, 3, 4, 5, 6] ∨
    EQ_PRESETS p = some [-2, -2, 0, 2, 4, 4, 3, 2, 1, 0] ∨
    EQ_PRESETS p = some [0, 0, 0, 0, 0, 0, 0, -3, -5, -8] ∨
    EQ_PRESETS p = none := by
  unfold EQ_PRESETS
  split_ifs <;> simp

/-- Executable strict-ascent check on a frequency list. -/
def strictAscending : List Nat → Bool
  | [] => true
  | [_] => true
  | a :: b :: rest => decide (a < b) && strictAscending (b :: rest)

/-- The executable check agrees with pairwise strict order. -/
lemma strictAscending_iff_pairwise (l : List Nat) :
    strictAscending l = true ↔ List.Pairwise (· < ·) l := by
  rw [← List.chain'_iff_pairwise]
  induction l with
  | nil => simp [strictAscending]
  | cons a t ih =>
      cases t with
      | nil => simp [strictAscending]
      | cons b r => simp [strictAscending, List.chain'_cons, ← ih]

/-! ## Claim C1: the filter graph builder -/

/-- Claim C1: for every equalizer-preset id and gain value, `build_af`
produces a chain headed by the broadband `volume` stage at the given dB
value, followed by exactly one parametric band stage per nonzero band of the
preset (width type octave, width 2), in strictly ascending center-frequency
order over the fixed bands; zero-gain bands produce no stage and an unknown
preset id yields only the gain stage. -/
theorem build_af_chain_spec (p : String) (g : Int) :
    build_af_stages p g = FilterStage.volume g :: band_stages p ∧
    (band_stages p).all isBandStage = true ∧
    List.Pairwise (· < ·) (stageFreqs (band_stages p)) ∧
    (band_stages p).length =
      (((EQ_PRESETS p).getD [0, 0, 0, 0, 0, 0, 0, 0, 0, 0]).filter
        (fun b => b != 0)).length ∧
    (EQ_PRESETS p = none → build_af_stages p g = [FilterStage.volume g]) := by
  have hc := EQ_PRESETS_cases p
  refine ⟨rfl, ?_, ?_, ?_, ?_⟩
  · rcases hc with h | h | h | h | h | h | h | h | h | h <;>
      (rw [band_stages_eq, h]; decide)
  · rw [← strictAscending_iff_pairwise]
    rcases hc with h | h | h | h | h | h | h | h | h | h <;>
      (rw [band_stages_eq, h]; decide)
  · rcases hc with h | h | h | h | h | h | h | h | h | h <;>
      (rw [band_stages_eq, h]; decide)
  · intro hn
    have ht : band_stages p = [] := by rw [band_stages_eq, hn]; decide
    simp [build_af_stages, ht]

/-- Witness for `build_af_chain_spec`: an unknown preset yields only the
gain stage. -/
theorem build_af_chain_spec_witness :
    EQ_PRESETS "disco" = none ∧
      build_af_stages "disco" 5 = [FilterStage.volume 5] :=
  ⟨by decide, (build_af_chain_spec "disco" 5).2.2.2.2 (by decide)⟩

/-! ## Claim C8: metadata cache memoization -/

/-- Claim C8: the second `get_metadata` call for a path returns exactly the
descriptor stored by the first call, performs no extraction, and leaves the
cache unchanged, whatever the second call's extraction environment would
have done. -/
theorem get_metadata_memoized (db : List (String × Meta)) (path : String)
    (ext1 ext2 : MutagenResult) :
    get_metadata (get_metadata db path ext1).2.1 path ext2 =
      ((get_metadata db path ext1).1, (get_metadata db path ext1).2.1,
        false) := by
  cases h : List.lookup path db with
  | some m => simp [get_metadata, h]
  | none => cases ext1 <;> simp [get_metadata, h, List.lookup]

/-! ## Claim C9: extraction failure fallback -/

/-- Claim C9 (amended): on a first lookup, if mutagen is unavailable, the
open itself raises, or the file is unrecognized, `get_metadata` returns
exactly the filename-derived default descriptor (title from the filename
without extension, other fields empty / zero / none); if extraction raises
midway, the fields already extracted are kept and the rest stay at their
defaults. Totality of `get_metadata` models that no exception escapes. -/
theorem get_metadata_failure_fallback (db : List (String × Meta))
    (path : String) (hdb : List.lookup path db = none) :
    (get_metadata db path MutagenResult.unavailable).1 = defaultMeta path ∧
    (get_metadata db path MutagenResult.raisesAtOpen).1 = defaultMeta path ∧
    (get_metadata db path MutagenResult.isNone).1 = defaultMeta path ∧
    (∀ events : List ExtractEvent,
      (get_metadata db path (MutagenResult.opened events true)).1 =
        events.foldl applyEvent (defaultMeta path)) ∧
    (defaultMeta path).title = splitextRoot (basename path) ∧
    (defaultMeta path).artist = "" ∧ (defaultMeta path).album = "" ∧
    (defaultMeta path).duration = 0 ∧ (defaultMeta path).cover = none := by
  refine ⟨?_, ?_, ?_, ?_, rfl, rfl, rfl, rfl, rfl⟩
  · simp [get_metadata, hdb]
  · simp [get_metadata, hdb]
  · simp [get_metadata, hdb]
  · intro events; simp [get_metadata, hdb]

/-- Witness for `get_metadata_failure_fallback` at a concrete path. -/
theorem get_metadata_failure_fallback_witness :
    List.lookup "dir/song.mp3" ([] : List (String × Meta)) = none ∧
      (get_metadata [] "dir/song.mp3" MutagenResult.unavailable).1 =
        defaultMeta "dir/song.mp3" :=
  ⟨rfl, (get_metadata_failure_fallback [] "dir/song.mp3" rfl).1⟩

/-- Counterexample to claim C9 as stated: an extraction that reads the title
tag and then raises stores the partially built descriptor, whose title is
the tag value, not the filename-derived one. -/
theorem get_metadata_partial_raise_cex :
    (get_metadata [] "dir/song.mp3"
        (MutagenResult.opened [ExtractEvent.setTitle "Mahler"] true)).1.title
      = "Mahler" ∧
    splitextRoot (basename "dir/song.mp3") = "song" ∧
    ("Mahler" : String) ≠ "song" := by
  refine ⟨rfl, rfl, by decide⟩

/-! ## Claim C4: the volume handler -/

/-- Counterexample to claim C4 as stated: `SetVolume(200)` does leave the
session volume at 200 — the handler applies no clamp and no rejection. -/
theorem set_volume_unclamped_cex :
    (api_volume initSession 200).1.volume = 200 ∧
      ¬ (api_volume initSession 200).1.volume ≤ 130 := by decide

/-- Claim C4 (amended): the `/api/volume` handler stores the requested
integer verbatim — values outside the declared 0-130 domain included — and
forwards the same value to mpv, touching nothing else in the session. -/
theorem set_volume_stores_verbatim (s : Session) (v : Int) :
    (api_volume s v).1.volume = v ∧ (api_volume s v).2 = v ∧
    (api_volume s v).1.playlist = s.playlist ∧
    (api_volume s v).1.current_index = s.current_index ∧
    (api_volume s v).1.playing = s.playing :=
  ⟨rfl, rfl, rfl, rfl, rfl⟩

/-! ## Claim C5: the stop handler -/

/-- Counterexample to claim C5 as stated: after starting `["A"]` at index 0
and issuing `/api/stop`, the playlist is still `["A"]` and `current_index`
is still 0 — the session is not reset to empty / -1. -/
theorem api_stop_no_reset_cex :
    (reach [Act.startValid ["A"] 0, Act.apiStop]).playlist = ["A"] ∧
    (reach [Act.startValid ["A"] 0, Act.apiStop]).current_index = 0 ∧
    ¬ ((reach [Act.startValid ["A"] 0, Act.apiStop]).playlist = [] ∧
        (reach [Act.startValid ["A"] 0, Act.apiStop]).current_index = -1) := by
  decide

/-- Claim C5 (amended): on explicit stop the handler raises the stop flag,
tears down the renderer (playing and paused become false, no live handle),
and clears the current track and cover — but the playlist and
`current_index` are left unchanged, not reset to empty / -1; the session
record itself persists. -/
theorem api_stop_clears_playback_only (s : Session) :
    (api_stop s).playing = false ∧ (api_stop s).paused = false ∧
    (api_stop s).mpv_proc = false ∧ (api_stop s).current_track = none ∧
    (api_stop s).cover_path = none ∧ (api_stop s).stop_playlist = true ∧
    (api_stop s).playlist = s.playlist ∧
    (api_stop s).current_index = s.current_index :=
  ⟨rfl, rfl, rfl, rfl, rfl, rfl, rfl, rfl⟩

/-! ## Claim C10: unknown preset ids -/

/-- Claim C10: an unknown preset id sent to `/api/eq` or `/api/gain` leaves
the session entirely unchanged and triggers no pipeline restart, while the
handler still replies successfully echoing the requested id. -/
theorem unknown_preset_silently_ignored (s : Session) (p : String) :
    (EQ_PRESETS p = none → api_eq s p = (s, p, false)) ∧
    (GAIN_PRESETS p = none → api_gain s p = (s, p, false)) := by
  constructor
  · intro h; simp [api_eq, h]
  · intro h; simp [api_gain, h]

/-- Witness for `unknown_preset_silently_ignored` at an id missing from both
tables. -/
theorem unknown_preset_silently_ignored_witness :
    EQ_PRESETS "disco8" = none ∧
      api_eq initSession "disco8" = (initSession, "disco8", false) :=
  ⟨by decide, (unknown_preset_silently_ignored initSession "disco8").1
    (by decide)⟩

/-! ## Claim C2: poll-tick skip handling -/

/-- Claim C2: in a poll tick over a non-empty playlist with captured
iteration index `idx`: a set advance flag is cleared, the index becomes
`min(idx+1, last)`, and the pipeline is force-stopped, with the retreat flag
untouched; a set retreat flag (advance clear) is cleared and the index
becomes `max(idx-1, 0)` with a force-stop; when both flags are set, advance
is checked first and wins — only the advance flag is consumed that tick. -/
theorem poll_tick_skip_spec (s : Session) (idx : Int)
    (_hne : s.playlist ≠ []) :
    (s.skip_next = true →
      (pollTick s idx).1 = TickResult.brokeNext ∧
      (pollTick s idx).2.skip_next = false ∧
      (pollTick s idx).2.current_index =
        min (idx + 1) ((s.playlist.length : Int) - 1) ∧
      (pollTick s idx).2.mpv_proc = false ∧
      (pollTick s idx).2.playing = false ∧
      (pollTick s idx).2.skip_prev = s.skip_prev) ∧
    (s.skip_next = false → s.skip_prev = true →
      (pollTick s idx).1 = TickResult.brokePrev ∧
      (pollTick s idx).2.skip_prev = false ∧
      (pollTick s idx).2.current_index = max (idx - 1) 0 ∧
      (pollTick s idx).2.mpv_proc = false ∧
      (pollTick s idx).2.playing = false ∧
      (pollTick s idx).2.skip_next = false) ∧
    (s.skip_next = true → s.skip_prev = true →
      (pollTick s idx).1 = TickResult.brokeNext ∧
      (pollTick s idx).2.skip_prev = true ∧
      (pollTick s idx).2.skip_next = false) := by
  refine ⟨?_, ?_, ?_⟩
  · intro h; simp [pollTick, stop_mpv, h]
  · intro h1 h2; simp [pollTick, stop_mpv, h1, h2]
  · intro h1 h2; simp [pollTick, stop_mpv, h1, h2]

/-- A concrete session in the poll loop with both skip flags raised. -/
def c2exS : Session :=
  { initSession with
      playlist := ["a", "b"]
      current_index := 0
      playing := true
      mpv_proc := true
      skip_next := true
      skip_prev := true
      phase := Phase.polling 0 }

/-- Witness for `poll_tick_skip_spec`: with both flags set, the tick breaks
via advance and leaves the retreat flag pending. -/
theorem poll_tick_skip_spec_witness :
    c2exS.playlist ≠ [] ∧ c2exS.skip_next = true ∧ c2exS.skip_prev = true ∧
    (pollTick c2exS 0).1 = TickResult.brokeNext ∧
    (pollTick c2exS 0).2.skip_prev = true :=
  ⟨by decide, rfl, rfl,
    ((poll_tick_skip_spec c2exS 0 (by decide)).2.2 rfl rfl).1,
    ((poll_tick_skip_spec c2exS 0 (by decide)).2.2 rfl rfl).2.1⟩

/-! ## Claim C3: natural end-of-track -/

/-- Start `["A", "B", "C"]` at index 0, play A, and let it end naturally. -/
def abcPlay : List Act :=
  [Act.startValid ["A", "B", "C"] 0, Act.driverTop (SpawnOutcome.ok none),
    Act.driverEnd]

/-- Continue through B and C ending naturally, then one more loop head. -/
def abcFull : List Act :=
  abcPlay ++
    [Act.driverTop (SpawnOutcome.ok none), Act.driverEnd,
      Act.driverTop (SpawnOutcome.ok none), Act.driverEnd,
      Act.driverTop (SpawnOutcome.ok none)]

/-- Claim C3: a natural renderer exit (no skip consumed, no external stop)
advances `current_index` by one and loops; concretely, on `["A", "B", "C"]`
from index 0 a natural end of A drives the index to 1 and B starts, and a
natural end of C pushes the index out of range so the next loop iteration
goes idle with `playing = false`. -/
theorem natural_end_advances (s : Session) (idx : Int)
    (hph : s.phase = Phase.polling idx) (hstop : s.stop_playlist = false) :
    (step s Act.driverEnd).current_index = s.current_index + 1 ∧
    (step s Act.driverEnd).phase = Phase.top ∧
    (step s Act.driverEnd).skip_next = s.skip_next ∧
    (step s Act.driverEnd).skip_prev = s.skip_prev ∧
    (reach abcPlay).current_index = 1 ∧
    (reach (abcPlay ++ [Act.driverTop (SpawnOutcome.ok none)])).current_track
      = some "B" ∧
    (reach abcFull).current_index = 3 ∧
    (reach abcFull).playing = false ∧
    (reach abcFull).phase = Phase.done := by
  have hstep : step s Act.driverEnd =
      { s with current_index := s.current_index + 1, phase := Phase.top } := by
    unfold step
    rw [hph]
    simp [hstop]
  refine ⟨?_, ?_, ?_, ?_, by decide, by decide, by decide, by decide,
    by decide⟩ <;> rw [hstep]

/-- The state with B freshly started, used to witness the natural-end step. -/
def c3exS : Session := reach (abcPlay ++ [Act.driverTop (SpawnOutcome.ok none)])

/-- Witness for `natural_end_advances` at the concrete state where B plays. -/
theorem natural_end_advances_witness :
    c3exS.phase = Phase.polling 1 ∧ c3exS.stop_playlist = false ∧
    (step c3exS Act.driverEnd).current_index = c3exS.current_index + 1 :=
  ⟨by decide, by decide,
    (natural_end_advances c3exS 1 (by decide) (by decide)).1⟩

/-! ## Claim C7: spawn failure skips the track -/

/-- Start `["A", "B", "C"]` and fail every spawn: the driver walks off the
end of the playlist and goes idle. -/
def failAll : List Act :=
  [Act.startValid ["A", "B", "C"] 0, Act.driverTop SpawnOutcome.errOther,
    Act.driverTop SpawnOutcome.errOther, Act.driverTop SpawnOutcome.errOther,
    Act.driverTop SpawnOutcome.errOther]

/-- Claim C7: a spawn failure never escapes `play_track` (it returns `none`
as its handle), and the driver then advances `current_index` by one and
retries at the loop head, bounded only by playlist exhaustion — concretely,
a playlist whose every track fails to spawn ends idle with the index past
the end. -/
theorem spawn_failure_skips (s : Session) (path : String) (o : SpawnOutcome)
    (ho : o.isFail = true) (hph : s.phase = Phase.top)
    (hstop : s.stop_playlist = false)
    (hidx : 0 ≤ s.current_index ∧
      s.current_index < (s.playlist.length : Int)) :
    (play_track s path o).1 = none ∧
    (step s (Act.driverTop o)).current_index = s.current_index + 1 ∧
    (step s (Act.driverTop o)).phase = Phase.top ∧
    (step s (Act.driverTop o)).playlist = s.playlist ∧
    (reach failAll).phase = Phase.done ∧
    (reach failAll).playing = false ∧
    (reach failAll).current_index = 3 := by
  obtain ⟨h0, h1⟩ := hidx
  have hne2 : s.playlist.isEmpty = false := by
    cases hp : s.playlist with
    | nil => rw [hp] at h1; simp at h1; omega
    | cons a t => rfl
  have hcond : ¬ (s.playlist.isEmpty = true ∨ s.current_index < 0 ∨
      (s.playlist.length : Int) ≤ s.current_index) := by
    push_neg
    exact ⟨by simp [hne2], by omega, by omega⟩
  have hstep : step s (Act.driverTop o) =
      { stop_mpv s with current_index := s.current_index + 1 } := by
    cases o with
    | ok c => simp [SpawnOutcome.isFail] at ho
    | errFileNotFound =>
        simp only [step, hph]
        rw [if_neg (by simp [hstop]), if_neg hcond]
        simp [play_track, stop_mpv]
    | errOther =>
        simp only [step, hph]
        rw [if_neg (by simp [hstop]), if_neg hcond]
        simp [play_track, stop_mpv]
  have hplay : (play_track s path o).1 = none := by
    cases o with
    | ok c => simp [SpawnOutcome.isFail] at ho
    | errFileNotFound => simp [play_track]
    | errOther => simp [play_track]
  refine ⟨hplay, ?_, ?_, ?_, by decide, by decide, by decide⟩ <;>
    simp [hstep, stop_mpv, hph]

/-- A freshly started single-track session at the loop head. -/
def c7exS : Session := reach [Act.startValid ["A"] 0]

/-- Witness for `spawn_failure_skips`: a missing-executable failure on the
first track advances the index by one and stays at the loop head. -/
theorem spawn_failure_skips_witness :
    c7exS.phase = Phase.top ∧
    (play_track c7exS "A" SpawnOutcome.errFileNotFound).1 = none ∧
    (step c7exS (Act.driverTop SpawnOutcome.errFileNotFound)).current_index =
      c7exS.current_index + 1 :=
  ⟨by decide,
    (spawn_failure_skips c7exS "A" SpawnOutcome.errFileNotFound rfl
      (by decide) (by decide) (by decide)).1,
    (spawn_failure_skips c7exS "A" SpawnOutcome.errFileNotFound rfl
      (by decide) (by decide) (by decide)).2.1⟩

/-! ## Claim C6: the current-index invariant -/

/-- True of the start actions whose requested index already lies within
`[-1, len]` of the requested playlist. `/api/play-idx` (`startValid`)
guarantees this by its range check; `/api/play-paths` (`startPaths`) does
not, and passes any requested integer through. -/
def startsInRange : Act → Bool
  | Act.startPaths pl idx => decide (-1 ≤ idx ∧ idx ≤ (pl.length : Int))
  | _ => true

/-- The poll-loop invariant maintained by every operation, unvalidated
starts included: while the driver is inside the inner poll loop, the
captured `idx` equals `current_index` and is a valid offset. -/
def PollInv (s : Session) : Prop :=
  ∀ idx, s.phase = Phase.polling idx →
    s.current_index = idx ∧ 0 ≤ idx ∧ idx < (s.playlist.length : Int)

/-- The stronger invariant maintained when every start installed an in-range
index: `current_index` stays within `[-1, len(playlist)]` on top of the
poll-loop invariant. -/
def DriverInv (s : Session) : Prop :=
  (-1 ≤ s.current_index ∧ s.current_index ≤ (s.playlist.length : Int)) ∧
  PollInv s

lemma pollInv_init : PollInv initSession := by
  intro idx h
  simp [initSession] at h

lemma driverInv_init : DriverInv initSession :=
  ⟨⟨by decide, by decide⟩, pollInv_init⟩

lemma pollInv_step (s : Session) (a : Act) (h : PollInv s) :
    PollInv (step s a) := by
  cases a with
  | startValid pl idx =>
      simp only [step]
      split_ifs with hv
      · intro i hi
        have hi2 : Phase.top = Phase.polling i := hi
        exact Phase.noConfusion hi2
      · exact h
  | startPaths pl idx =>
      intro i hi
      have hi2 : Phase.top = Phase.polling i := hi
      exact Phase.noConfusion hi2
  | signalNext => exact fun i hi => h i hi
  | signalPrev => exact fun i hi => h i hi
  | apiStop => exact fun i hi => h i hi
  | driverTop spawn =>
      cases hp : s.phase with
      | top =>
          simp only [step, hp]
          split_ifs with h1 h2
          · intro i hi
            have hi2 : Phase.done = Phase.polling i := hi
            exact Phase.noConfusion hi2
          · intro i hi
            have hi2 : Phase.done = Phase.polling i := hi
            exact Phase.noConfusion hi2
          · push_neg at h2
            obtain ⟨hne2, hge, hlt⟩ := h2
            cases spawn with
            | ok c =>
                intro i hi
                have hi2 : Phase.polling s.current_index = Phase.polling i := hi
                injection hi2 with h3
                subst h3
                refine ⟨rfl, by omega, ?_⟩
                show s.current_index < (s.playlist.length : Int)
                omega
            | errFileNotFound =>
                intro i hi
                have hi2 : s.phase = Phase.polling i := hi
                rw [hp] at hi2
                exact Phase.noConfusion hi2
            | errOther =>
                intro i hi
                have hi2 : s.phase = Phase.polling i := hi
                rw [hp] at hi2
                exact Phase.noConfusion hi2
      | polling j =>
          simp only [step, hp]
          exact fun i hi => h i hi
      | done =>
          simp only [step, hp]
          exact fun i hi => h i hi
  | driverTick =>
      cases hp : s.phase with
      | top =>
          simp only [step, hp]
          exact fun i hi => h i hi
      | polling j =>
          simp only [step, hp]
          split_ifs with h1
          · intro i hi
            have hi2 : Phase.top = Phase.polling i := hi
            exact Phase.noConfusion hi2
          · by_cases hn : s.skip_next = true
            · have e1 : pollTick s j =
                  (TickResult.brokeNext,
                    stop_mpv { s with
                      skip_next := false
                      current_index :=
                        min (j + 1) ((s.playlist.length : Int) - 1) }) := by
                simp [pollTick, hn]
              rw [e1]
              intro i hi
              have hi2 : Phase.top = Phase.polling i := hi
              exact Phase.noConfusion hi2
            · by_cases hq : s.skip_prev = true
              · have e2 : pollTick s j =
                    (TickResult.brokePrev,
                      stop_mpv { s with
                        skip_prev := false
                        current_index := max (j - 1) 0 }) := by
                  simp [pollTick, hn, hq]
                rw [e2]
                intro i hi
                have hi2 : Phase.top = Phase.polling i := hi
                exact Phase.noConfusion hi2
              · have e3 : pollTick s j = (TickResult.slept, s) := by
                  simp [pollTick, hn, hq]
                rw [e3]
                exact fun i hi => h i hi
      | done =>
          simp only [step, hp]
          exact fun i hi => h i hi
  | driverEnd =>
      cases hp : s.phase with
      | top =>
          simp only [step, hp]
          exact fun i hi => h i hi
      | polling j =>
          simp only [step, hp]
          split_ifs with h1
          · intro i hi
            have hi2 : Phase.top = Phase.polling i := hi
            exact Phase.noConfusion hi2
          · intro i hi
            have hi2 : Phase.top = Phase.polling i := hi
            exact Phase.noConfusion hi2
      | done =>
          simp only [step, hp]
          exact fun i hi => h i hi

lemma driverInv_step (s : Session) (a : Act) (ha : startsInRange a = true)
    (h : DriverInv s) : DriverInv (step s a) := by
  obtain ⟨⟨hlo, hhi⟩, hph⟩ := h
  refine ⟨?_, pollInv_step s a hph⟩
  cases a with
  | startValid pl idx =>
      simp only [step]
      split_ifs with hv
      · constructor
        · show -1 ≤ idx
          omega
        · show idx ≤ (pl.length : Int)
          omega
      · exact ⟨hlo, hhi⟩
  | startPaths pl idx =>
      have ha2 : -1 ≤ idx ∧ idx ≤ (pl.length : Int) := by
        simpa [startsInRange] using ha
      constructor
      · show -1 ≤ idx
        omega
      · show idx ≤ (pl.length : Int)
        omega
  | signalNext => exact ⟨hlo, hhi⟩
  | signalPrev => exact ⟨hlo, hhi⟩
  | apiStop => exact ⟨hlo, hhi⟩
  | driverTop spawn =>
      cases hp : s.phase with
      | top =>
          simp only [step, hp]
          split_ifs with h1 h2
          · exact ⟨hlo, hhi⟩
          · exact ⟨hlo, hhi⟩
          · push_neg at h2
            obtain ⟨hne2, hge, hlt⟩ := h2
            cases spawn with
            | ok c =>
                constructor
                · show -1 ≤ s.current_index
                  omega
                · show s.current_index ≤ (s.playlist.length : Int)
                  omega
            | errFileNotFound =>
                constructor
                · show -1 ≤ s.current_index + 1
                  omega
                · show s.current_index + 1 ≤ (s.playlist.length : Int)
                  omega
            | errOther =>
                constructor
                · show -1 ≤ s.current_index + 1
                  omega
                · show s.current_index + 1 ≤ (s.playlist.length : Int)
                  omega
      | polling j =>
          simp only [step, hp]
          exact ⟨hlo, hhi⟩
      | done =>
          simp only [step, hp]
          exact ⟨hlo, hhi⟩
  | driverTick =>
      cases hp : s.phase with
      | top =>
          simp only [step, hp]
          exact ⟨hlo, hhi⟩
      | polling j =>
          obtain ⟨hcur, hge, hlt⟩ := hph j hp
          simp only [step, hp]
          split_ifs with h1
          · exact ⟨hlo, hhi⟩
          · by_cases hn : s.skip_next = true
            · have e1 : pollTick s j =
                  (TickResult.brokeNext,
                    stop_mpv { s with
                      skip_next := false
                      current_index :=
                        min (j + 1) ((s.playlist.length : Int) - 1) }) := by
                simp [pollTick, hn]
              rw [e1]
              constructor
              · show -1 ≤ min (j + 1) ((s.playlist.length : Int) - 1)
                omega
              · show min (j + 1) ((s.playlist.length : Int) - 1) ≤
                  (s.playlist.length : Int)
                omega
            · by_cases hq : s.skip_prev = true
              · have e2 : pollTick s j =
                    (TickResult.brokePrev,
                      stop_mpv { s with
                        skip_prev := false
                        current_index := max (j - 1) 0 }) := by
                  simp [pollTick, hn, hq]
                rw [e2]
                constructor
                · show -1 ≤ max (j - 1) 0
                  omega
                · show max (j - 1) 0 ≤ (s.playlist.length : Int)
                  omega
              · have e3 : pollTick s j = (TickResult.slept, s) := by
                  simp [pollTick, hn, hq]
                rw [e3]
                exact ⟨hlo, hhi⟩
      | done =>
          simp only [step, hp]
          exact ⟨hlo, hhi⟩
  | driverEnd =>
      cases hp : s.phase with
      | top =>
          simp only [step, hp]
          exact ⟨hlo, hhi⟩
      | polling j =>
          obtain ⟨hcur, hge, hlt⟩ := hph j hp
          simp only [step, hp]
          split_ifs with h1
          · exact ⟨hlo, hhi⟩
          · constructor
            · show -1 ≤ s.current_index + 1
              omega
            · show s.current_index + 1 ≤ (s.playlist.length : Int)
              omega
      | done =>
          simp only [step, hp]
          exact ⟨hlo, hhi⟩

lemma pollInv_foldl (acts : List Act) :
    ∀ s, PollInv s → PollInv (acts.foldl step s) := by
  induction acts with
  | nil => intro s h; exact h
  | cons a rest ih => intro s h; exact ih _ (pollInv_step s a h)

lemma driverInv_foldl (acts : List Act) :
    ∀ s, (∀ a ∈ acts, startsInRange a = true) → DriverInv s →
      DriverInv (acts.foldl step s) := by
  induction acts with
  | nil => intro s _ h; exact h
  | cons a rest ih =>
      intro s ha h
      exact ih _ (fun b hb => ha b (List.mem_cons_of_mem a hb))
        (driverInv_step s a (ha a (List.mem_cons_self a rest)) h)

/-- Counterexample to claim C6 as stated, on both cited code paths. After
starting `["A"]` at index 0 and letting the track end naturally, the
while-else increment leaves `current_index = 1` on a playlist of length 1;
and one unvalidated `/api/play-paths` request installs `current_index = 100`
directly. Neither value is -1 or a valid offset. -/
theorem current_index_invariant_cex :
    (reach [Act.startValid ["A"] 0, Act.driverTop (SpawnOutcome.ok none),
        Act.driverEnd]).current_index = 1 ∧
    (reach [Act.startValid ["A"] 0, Act.driverTop (SpawnOutcome.ok none),
        Act.driverEnd]).playlist = ["A"] ∧
    ¬ ((reach [Act.startValid ["A"] 0, Act.driverTop (SpawnOutcome.ok none),
          Act.driverEnd]).current_index = -1 ∨
        (0 ≤ (reach [Act.startValid ["A"] 0,
            Act.driverTop (SpawnOutcome.ok none), Act.driverEnd]).current_index ∧
          (reach [Act.startValid ["A"] 0, Act.driverTop (SpawnOutcome.ok none),
              Act.driverEnd]).current_index <
            ((reach [Act.startValid ["A"] 0, Act.driverTop (SpawnOutcome.ok none),
                Act.driverEnd]).playlist.length : Int))) ∧
    (reach [Act.startPaths ["A"] 100]).current_index = 100 ∧
    (reach [Act.startPaths ["A"] 100]).playlist = ["A"] ∧
    ¬ ((reach [Act.startPaths ["A"] 100]).current_index = -1 ∨
        (0 ≤ (reach [Act.startPaths ["A"] 100]).current_index ∧
          (reach [Act.startPaths ["A"] 100]).current_index <
            ((reach [Act.startPaths ["A"] 100]).playlist.length : Int))) := by
  decide

/-- Claim C6 (amended): over every state reachable by playlist starts (the
validated `/api/play-idx` path and the unvalidated `/api/play-paths` path
alike), driver loop steps, skip signals, natural track end, and stop:
whenever the driver is polling a live track, `current_index` equals the
captured iteration index and is a valid offset into `playlist`; and when
every start in the history installed an index within `[-1, len]` of its
playlist (which `/api/play-idx` checks and `/api/play-paths` does not),
`current_index` stays in the closed range `[-1, len(playlist)]`, reaching
`len(playlist)` only by advancing past the last track. Without that
restriction, an unvalidated start makes any requested integer reachable as
`current_index`. -/
theorem current_index_bounded (acts : List Act) :
    (∀ idx, (reach acts).phase = Phase.polling idx →
      (reach acts).current_index = idx ∧ 0 ≤ idx ∧
        idx < ((reach acts).playlist.length : Int)) ∧
    ((∀ a ∈ acts, startsInRange a = true) →
      -1 ≤ (reach acts).current_index ∧
        (reach acts).current_index ≤ ((reach acts).playlist.length : Int)) :=
  ⟨pollInv_foldl acts initSession pollInv_init,
    fun ha => (driverInv_foldl acts initSession ha driverInv_init).1⟩

/-- Witness for `current_index_bounded` at a state that is actually in the
poll loop, with an all-in-range history. -/
theorem current_index_bounded_witness :
    (reach [Act.startValid ["A"] 0, Act.driverTop (SpawnOutcome.ok none)]).phase
      = Phase.polling 0 ∧
    (reach [Act.startValid ["A"] 0,
        Act.driverTop (SpawnOutcome.ok none)]).current_index = 0 ∧
    -1 ≤ (reach [Act.startValid ["A"] 0,
        Act.driverTop (SpawnOutcome.ok none)]).current_index :=
  ⟨by decide,
    ((current_index_bounded [Act.startValid ["A"] 0,
        Act.driverTop (SpawnOutcome.ok none)]).1 0 (by decide)).1,
    ((current_index_bounded [Act.startValid ["A"] 0,
        Act.driverTop (SpawnOutcome.ok none)]).2 (by decide)).1⟩
